import Mathlib

/-!
Shallow embedding, over ℝ, of the core of the `market_simulation` repository:
the geographic primitives, `Cleaner`, `Market`, the `Simulator` search
pipeline and the metrics aggregation, together with proofs of the behavioural
properties stated for them.

Modelling conventions.
Python floats are modelled as real numbers, and `np.exp`, `np.cos`, `np.sin`
as the corresponding real functions.  NumPy's process-wide random stream is
modelled as an explicit state `RNG` holding an arbitrary stream `ℕ → ℝ` of
primitive draws together with the position of the next draw;
`np.random.random()` consumes one draw, `np.random.uniform(a, b)` consumes
one draw `u` and yields `a + (b - a) * u`, `np.random.normal(mu, sigma)`
consumes one draw `z` and yields `mu + sigma * z`, and
`np.random.choice(values, p=ws)` consumes one draw and selects by cumulative
weight, exactly the data flow of the source.  `np.random.seed s` replaces the
state by a stream determined by `s` alone; the map from seeds to streams is
an arbitrary parameter of the development, since only its determinism
matters.  Functions that can raise a Python exception are `Option`-valued,
with `none` standing for the raised exception.  Python's insertion-ordered
`dict` is an association list, with `dictInsert` matching `d[k] = v`.
-/

/-- State of the process-wide NumPy random stream: the stream of primitive
draws and the position of the next one. -/
structure RNG where
  stream : ℕ → ℝ
  pos : ℕ

/-- Result of `np.random.uniform(a, b)` on the primitive draw `u`. -/
noncomputable def npUniform (a b u : ℝ) : ℝ := a + (b - a) * u

/-- Cumulative sums of a weight list, as in `np.cumsum`. -/
noncomputable def cumsum : List ℝ → List ℝ
  | [] => []
  | x :: xs => x :: (cumsum xs).map (fun c => x + c)

/-- Index selected by `np.random.choice(values, p=ws)` on one primitive draw
`u`: the first position whose cumulative weight exceeds `u`
(numpy's `p.cumsum().searchsorted(u, side='right')`).  For a draw outside
`[0, 1)` the index can reach `ws.length`, where the caller's indexing fails,
as numpy's would. -/
noncomputable def npChoiceIdx (ws : List ℝ) (u : ℝ) : ℕ :=
  (cumsum ws).findIdx (fun c => decide (u < c))

/-- `np.radians`. -/
noncomputable def radians (x : ℝ) : ℝ := x * Real.pi / 180

/-- Modelled from the spec: `calculate_haversine_distance`
(`market_simulation/utils/geo_utils.py`) is not in the source tree — only its
tests and callers are.  The spec fixes it as the haversine great-circle
formula on Earth radius 6371 km. -/
noncomputable def calculate_haversine_distance (lat1 lon1 lat2 lon2 : ℝ) : ℝ :=
  let dlat := radians (lat2 - lat1)
  let dlon := radians (lon2 - lon1)
  let a := Real.sin (dlat / 2) ^ 2 +
    Real.cos (radians lat1) * Real.cos (radians lat2) * Real.sin (dlon / 2) ^ 2
  2 * 6371 * Real.arcsin (Real.sqrt a)

/-- `GeoLocation` (models/geo.py): a latitude/longitude pair. -/
structure GeoLocation where
  latitude : ℝ
  longitude : ℝ

/-- The coordinate invariant checked by `GeoLocation.__post_init__`. -/
def GeoLocation.valid (p : GeoLocation) : Prop :=
  -90 ≤ p.latitude ∧ p.latitude ≤ 90 ∧ -180 ≤ p.longitude ∧ p.longitude ≤ 180

/-- `GeoLocation.sample_point_in_radius` (models/geo.py): a uniformly random
bearing and a radius-uniform distance, converted to a lat/lon offset with the
flat-Earth approximation; raises (`none`) exactly when `radius_km ≤ 0`.
The two draws consumed are the angle and the distance, in that order. -/
noncomputable def GeoLocation.sample_point_in_radius (p : GeoLocation) (radius_km : ℝ)
    (g : RNG) : Option ((ℝ × ℝ) × RNG) :=
  if radius_km ≤ 0 then none
  else
    let angle := npUniform 0 (2 * Real.pi) (g.stream g.pos)
    let r := npUniform 0 radius_km (g.stream (g.pos + 1))
    let lat_offset := r * Real.cos angle / 111
    let lon_offset := r * Real.sin angle / (111 * Real.cos (radians p.latitude))
    some ((p.latitude + lat_offset, p.longitude + lon_offset), ⟨g.stream, g.pos + 2⟩)

/-- `PostalCode` (models/geo.py). -/
structure PostalCode where
  latitude : ℝ
  longitude : ℝ
  postal_code : String
  market : String
  str_tam : ℕ
  area : Option ℝ

/-- `Cleaner` (models/cleaner.py). -/
structure Cleaner where
  contractor_id : String
  latitude : ℝ
  longitude : ℝ
  postal_code : Option String
  bidding_active : Bool
  assignment_active : Bool
  cleaner_score : ℝ
  service_radius : ℝ
  team_size : ℕ
  active_connections : ℕ
  active_connection_ratio : ℝ

/-- The invariants checked by `Cleaner.__post_init__` (team size and
active-connection count are already non-negative as naturals). -/
def Cleaner.valid (c : Cleaner) : Prop :=
  -90 ≤ c.latitude ∧ c.latitude ≤ 90 ∧ -180 ≤ c.longitude ∧ c.longitude ≤ 180 ∧
  0 ≤ c.cleaner_score ∧ c.cleaner_score ≤ 1 ∧ 0 < c.service_radius ∧
  1 ≤ c.team_size ∧ 0 ≤ c.active_connection_ratio ∧ c.active_connection_ratio ≤ 1

/-- `Cleaner.calculate_distance_to`. -/
noncomputable def Cleaner.calculate_distance_to (c : Cleaner) (lat lon : ℝ) : ℝ :=
  calculate_haversine_distance c.latitude c.longitude lat lon

/-- `Cleaner.max_connections`: `team_size * MAX_CONNECTIONS_PER_MEMBER`,
with the constant 10. -/
def Cleaner.max_connections (c : Cleaner) : ℕ := c.team_size * 10

/-- `Cleaner.calculate_capacity_factor`:
`max(0.1, 1 - active_connections / max_connections)`. -/
noncomputable def Cleaner.calculate_capacity_factor (c : Cleaner) : ℝ :=
  max 0.1 (1 - (c.active_connections : ℝ) / (c.max_connections : ℝ))

/-- `Cleaner.calculate_bid_probability`: `0.0` if bidding is inactive,
otherwise `base_probability * quality * capacity * exp(-decay * distance)`
clamped into `[0, 1]` by `max(0.0, min(1.0, p))`. -/
noncomputable def Cleaner.calculate_bid_probability (c : Cleaner) (distance : ℝ)
    (distance_decay_factor : ℝ) (base_probability : ℝ) : ℝ :=
  if c.bidding_active then
    max 0 (min 1 (base_probability * c.cleaner_score * c.calculate_capacity_factor *
      Real.exp (-distance_decay_factor * distance)))
  else 0

/-- Python `d[k] = v` on an insertion-ordered dict represented as an
association list: replace in place when the key is present, else append. -/
def dictInsert {α : Type} : List (String × α) → String → α → List (String × α)
  | [], k, v => [(k, v)]
  | (k', v') :: rest, k, v =>
    if k' = k then (k, v) :: rest else (k', v') :: dictInsert rest k v

/-- Python `d.get(k)`: the value stored under the first occurrence of `k`. -/
def dictGet {α : Type} (l : List (String × α)) (k : String) : Option α :=
  (l.find? (fun e => decide (e.1 = k))).map (fun e => e.2)

/-- Python `k in d`. -/
def dictHasKey {α : Type} (l : List (String × α)) (k : String) : Bool :=
  (l.find? (fun e => decide (e.1 = k))).isSome

/-- `Market` (models/market.py): either postal-code-based (`postal_codes` a
dict) or location-based (center plus radius), plus the cleaner registry. -/
structure Market where
  market_id : String
  postal_codes : Option (List (String × PostalCode))
  center_lat : Option ℝ
  center_lon : Option ℝ
  radius_km : Option ℝ
  cleaners : List (String × Cleaner)

/-- The configuration checks of `Market.__post_init__`. -/
def Market.valid (m : Market) : Prop :=
  (m.postal_codes ≠ none ∨
    (m.center_lat ≠ none ∧ m.center_lon ≠ none ∧ m.radius_km ≠ none)) ∧
  (m.postal_codes = none ∨
    (m.center_lat = none ∧ m.center_lon = none ∧ m.radius_km = none)) ∧
  (∀ x, m.center_lat = some x → -90 ≤ x ∧ x ≤ 90) ∧
  (∀ x, m.center_lon = some x → -180 ≤ x ∧ x ≤ 180) ∧
  (∀ r, m.radius_km = some r → 0 < r)

/-- `Market.add_cleaner`: on a postal-code market, raises (`none`) when the
cleaner's postal code is not a key of the market's mapping (`None` is never a
key); on a location market, raises when the haversine distance from the
center exceeds `radius_km`.  On success the cleaner is stored under its
contractor id.  The unreachable fallback for a market with missing location
fields is the `TypeError` Python would raise. -/
noncomputable def Market.add_cleaner (m : Market) (c : Cleaner) : Option Market :=
  match m.postal_codes with
  | some pcs =>
    match c.postal_code with
    | some pc =>
      if dictHasKey pcs pc then
        some { m with cleaners := dictInsert m.cleaners c.contractor_id c }
      else none
    | none => none
  | none =>
    match m.center_lat, m.center_lon, m.radius_km with
    | some clat, some clon, some r =>
      if r < calculate_haversine_distance clat clon c.latitude c.longitude then none
      else some { m with cleaners := dictInsert m.cleaners c.contractor_id c }
    | _, _, _ => none

/-- `Market.get_cleaners_in_range`: linear scan, boundary inclusive.  The
`radius_km ≤ 0` error it raises is modelled at its call site in
`simulateSearchCore`. -/
noncomputable def Market.get_cleaners_in_range (m : Market) (lat lon radius_km : ℝ) :
    List Cleaner :=
  (m.cleaners.map (fun e => e.2)).filter
    (fun c => decide (c.calculate_distance_to lat lon ≤ radius_km))

/-- `Market.sample_location_by_tam`.  Postal-code branch: one draw selects a
postal code TAM-weighted (`none` when the total TAM is zero — Python's
`ZeroDivisionError` — or when the selection index falls outside the list),
then two draws perturb its centroid with `np.random.normal` at σ = 1 km.
Location branch: two draws sample radius-uniformly around the center;
`none` when the location fields are missing (Python `TypeError`). -/
noncomputable def Market.sample_location_by_tam (m : Market) (g : RNG) :
    Option ((ℝ × ℝ × Option String) × RNG) :=
  match m.postal_codes with
  | some pcs =>
    let total : ℕ := (pcs.map (fun e => e.2.str_tam)).sum
    if total = 0 then none
    else
      let ws : List ℝ := pcs.map (fun e => (e.2.str_tam : ℝ) / (total : ℝ))
      match pcs.get? (npChoiceIdx ws (g.stream g.pos)) with
      | none => none
      | some e =>
        let pcSel := e.2
        let lat_std : ℝ := 1 / 111
        let lon_std : ℝ := 1 / (111 * Real.cos (radians pcSel.latitude))
        let lat := pcSel.latitude + lat_std * g.stream (g.pos + 1)
        let lon := pcSel.longitude + lon_std * g.stream (g.pos + 2)
        some ((lat, lon, some pcSel.postal_code), ⟨g.stream, g.pos + 3⟩)
  | none =>
    match m.center_lat, m.center_lon, m.radius_km with
    | some clat, some clon, some r =>
      let angle := npUniform 0 (2 * Real.pi) (g.stream g.pos)
      let rr := npUniform 0 r (g.stream (g.pos + 1))
      let lat_offset := rr * Real.cos angle / 111
      let lon_offset := rr * Real.sin angle / (111 * Real.cos (radians clat))
      some ((clat + lat_offset, clon + lon_offset, none), ⟨g.stream, g.pos + 2⟩)
    | _, _, _ => none

/-- Modelled from the spec: `Market.total_area` is read by
`GeographicMetrics.calculate_coverage_metrics` but its definition is not in
the source tree.  The spec defines it as the sum of the postal-code areas for
a postal-code market (an absent area counting 0, as in the metrics code) and
π·radius² for a location market; `none` when a location market is missing
its radius. -/
noncomputable def Market.total_area (m : Market) : Option ℝ :=
  match m.postal_codes with
  | some pcs => some ((pcs.map (fun e => e.2.area.getD 0)).sum)
  | none => m.radius_km.map (fun r => Real.pi * r ^ 2)

/-- `SimulationConfig` (simulation/config.py); iteration counts are naturals,
everything else real.  Only the fields the core reads are kept meaningful;
`parallel_execution`/`max_workers` are carried for completeness. -/
structure SimulationConfig where
  search_iterations : ℕ
  supply_configuration_iterations : ℕ
  random_seed : Option ℕ
  search_radius_km : ℝ
  cleaner_base_bid_probability : ℝ
  connection_base_probability : ℝ
  distance_decay_factor : ℝ
  max_connections_per_member : ℕ
  min_capacity_factor : ℝ
  parallel_execution : Bool
  max_workers : ℕ

/-- `Offer` (simulation/results.py). -/
structure Offer where
  contractor_id : String
  distance : ℝ
  cleaner_score : ℝ
  active : Bool
  team_size : ℕ
  active_connections : ℕ

/-- `Bid` (simulation/results.py): an `Offer` widened by optional amount and
time. -/
structure Bid extends Offer where
  bid_amount : Option ℝ
  bid_time : Option ℝ

/-- `Connection` (simulation/results.py): a `Bid` widened by an optional
connection time. -/
structure Connection extends Bid where
  connection_time : Option ℝ

/-- The `Bid` the simulator builds from an `Offer` (all optional fields
defaulted to `None`). -/
def mkBid (o : Offer) : Bid := { toOffer := o, bid_amount := none, bid_time := none }

/-- The `Connection` the simulator builds from a `Bid` (source constructs it
from the base fields, so amount/times default to `None`). -/
def mkConnection (b : Bid) : Connection :=
  { toOffer := b.toOffer, bid_amount := none, bid_time := none, connection_time := none }

/-- A placeholder bid used only as the `List.getD` default at indices proven
in range. -/
noncomputable def defaultBid : Bid :=
  { contractor_id := "", distance := 0, cleaner_score := 0, active := false,
    team_size := 0, active_connections := 0, bid_amount := none, bid_time := none }

/-- `SearchResult` (simulation/results.py). -/
structure SearchResult where
  search_id : String
  latitude : ℝ
  longitude : ℝ
  postal_code : Option String
  offers : List Offer
  bids : List Bid
  connections : List Connection

/-- The per-search payload of a `SearchResult` minus the generated
`search_id` (which comes from `uuid.uuid4`, not from the seeded stream). -/
structure SearchData where
  latitude : ℝ
  longitude : ℝ
  postal_code : Option String
  offers : List Offer
  bids : List Bid
  connections : List Connection

/-- `Simulator._generate_offers`: one offer per cleaner in range, inactive
cleaners included. -/
noncomputable def generate_offers (cleaners : List Cleaner) (lat lon : ℝ) : List Offer :=
  cleaners.map (fun c =>
    { contractor_id := c.contractor_id,
      distance := c.calculate_distance_to lat lon,
      cleaner_score := c.cleaner_score,
      active := c.bidding_active,
      team_size := c.team_size,
      active_connections := c.active_connections })

/-- `Simulator._simulate_bids`: inactive offers are skipped without a draw;
an active offer consumes one uniform draw and becomes a bid when the draw is
below `base * exp(-decay * distance) * score * max(min_capacity, 1 - ac/(ts*10))`. -/
noncomputable def simulateBids (cfg : SimulationConfig) : List Offer → RNG → List Bid × RNG
  | [], g => ([], g)
  | o :: os, g =>
    if o.active then
      let probability := cfg.cleaner_base_bid_probability *
        Real.exp (-cfg.distance_decay_factor * o.distance) * o.cleaner_score *
        max cfg.min_capacity_factor (1 - (o.active_connections : ℝ) / ((o.team_size : ℝ) * 10))
      let u := g.stream g.pos
      let rest := simulateBids cfg os ⟨g.stream, g.pos + 1⟩
      (if u < probability then mkBid o :: rest.1 else rest.1, rest.2)
    else simulateBids cfg os g

/-- Python's `sorted(bids, key=lambda x: x.cleaner_score, reverse=True)` is a
stable descending sort; `insertBid` places a bid before the first element
whose score is not larger, so that earlier bids precede later ones among
equal scores. -/
noncomputable def insertBid (x : Bid) : List Bid → List Bid
  | [] => [x]
  | c :: cs =>
    if c.cleaner_score ≤ x.cleaner_score then x :: c :: cs else c :: insertBid x cs

/-- Stable descending-by-score sort of the bid list. -/
noncomputable def sortBidsDesc : List Bid → List Bid
  | [] => []
  | x :: xs => insertBid x (sortBidsDesc xs)

/-- The connection probability of one bid:
`connection_base_probability * score * exp(-decay * distance)`. -/
noncomputable def connProb (cfg : SimulationConfig) (b : Bid) : ℝ :=
  cfg.connection_base_probability * b.cleaner_score *
    Real.exp (-cfg.distance_decay_factor * b.distance)

/-- The walk of `Simulator._simulate_connections` over the sorted bids: each
examined bid consumes one uniform draw; the first success is returned as the
sole connection and the walk stops. -/
noncomputable def connWalk (cfg : SimulationConfig) : List Bid → RNG → List Connection × RNG
  | [], g => ([], g)
  | b :: bs, g =>
    let u := g.stream g.pos
    if u < connProb cfg b then ([mkConnection b], ⟨g.stream, g.pos + 1⟩)
    else connWalk cfg bs ⟨g.stream, g.pos + 1⟩

/-- `Simulator._simulate_connections`. -/
noncomputable def simulateConnections (cfg : SimulationConfig) (bids : List Bid)
    (g : RNG) : List Connection × RNG :=
  if bids.isEmpty then ([], g) else connWalk cfg (sortBidsDesc bids) g

/-- `Simulator.simulate_search` minus the `uuid.uuid4()` id: sample a
location, validate it as `SearchResult.__post_init__` does (`none` on a
coordinate outside range), collect cleaners in the configured search radius
(`none` when that radius is not positive, the `get_cleaners_in_range`
error), generate offers, simulate bids, and simulate connections when any
bid was made. -/
noncomputable def simulateSearchCore (m : Market) (cfg : SimulationConfig) (g : RNG) :
    Option (SearchData × RNG) :=
  match m.sample_location_by_tam g with
  | none => none
  | some ((lat, lon, pc), g1) =>
    if -90 ≤ lat ∧ lat ≤ 90 ∧ -180 ≤ lon ∧ lon ≤ 180 then
      if 0 < cfg.search_radius_km then
        let cleaners := m.get_cleaners_in_range lat lon cfg.search_radius_km
        let offers := generate_offers cleaners lat lon
        let br := simulateBids cfg offers g1
        let cr := if br.1.isEmpty then (([] : List Connection), br.2)
                  else simulateConnections cfg br.1 br.2
        some (⟨lat, lon, pc, offers, br.1, cr.1⟩, cr.2)
      else none
    else none

/-- `Simulator.simulate_search`: the core plus the generated search id.  The
ids produced by `uuid.uuid4()` are modelled by an arbitrary injection-free
stream `uuidStr` indexed by a call counter, which the search increments. -/
noncomputable def simulate_search (uuidStr : ℕ → String) (m : Market)
    (cfg : SimulationConfig) (g : RNG) (uc : ℕ) : Option (SearchResult × RNG × ℕ) :=
  (simulateSearchCore m cfg g).map (fun p =>
    ({ search_id := uuidStr uc, latitude := p.1.latitude, longitude := p.1.longitude,
       postal_code := p.1.postal_code, offers := p.1.offers, bids := p.1.bids,
       connections := p.1.connections }, p.2, uc + 1))

/-- The iteration loop of `Simulator.run_simulation`; a raised exception
(`none`) aborts the run as it would in Python. -/
noncomputable def runLoop (uuidStr : ℕ → String) (m : Market) (cfg : SimulationConfig) :
    ℕ → RNG → ℕ → Option (List SearchResult) × RNG × ℕ
  | 0, g, uc => (some [], g, uc)
  | n + 1, g, uc =>
    match simulate_search uuidStr m cfg g uc with
    | none => (none, g, uc)
    | some (r, g1, uc1) =>
      match runLoop uuidStr m cfg n g1 uc1 with
      | (none, g2, uc2) => (none, g2, uc2)
      | (some rs, g2, uc2) => (some (r :: rs), g2, uc2)

/-- `Simulator.run_simulation`: `iterations or config.search_iterations`
(Python `or`, so an explicit 0 also falls back to the config), then — when a
seed is configured — `np.random.seed` replaces the stream by the one the
seed determines (`seedStr`), and the loop runs. -/
noncomputable def run_simulation (uuidStr : ℕ → String) (seedStr : ℕ → ℕ → ℝ)
    (m : Market) (cfg : SimulationConfig) (iterations : Option ℕ) (g : RNG) (uc : ℕ) :
    Option (List SearchResult) × RNG × ℕ :=
  let n := match iterations with
    | some k => if k = 0 then cfg.search_iterations else k
    | none => cfg.search_iterations
  let g0 : RNG := match cfg.random_seed with
    | some s => ⟨seedStr s, 0⟩
    | none => g
  runLoop uuidStr m cfg n g0 uc

/-- `np.mean` of a list of floats. -/
noncomputable def npMean (l : List ℝ) : ℝ := l.sum / (l.length : ℝ)

/-- Ascending insertion used by the median's sort. -/
noncomputable def insertAsc (x : ℝ) : List ℝ → List ℝ
  | [] => [x]
  | y :: ys => if x ≤ y then x :: y :: ys else y :: insertAsc x ys

/-- Ascending sort used by the median. -/
noncomputable def sortAsc : List ℝ → List ℝ
  | [] => []
  | x :: xs => insertAsc x (sortAsc xs)

/-- `np.median`: middle element of the sorted list for odd length, mean of
the two middle elements for even length (callers guard against empty). -/
noncomputable def npMedian (l : List ℝ) : ℝ :=
  let s := sortAsc l
  let n := l.length
  if n % 2 = 1 then s.getD (n / 2) 0
  else (s.getD (n / 2 - 1) 0 + s.getD (n / 2) 0) / 2

/-- Python `max` over a list: `none`-free version returning the left-fold of
`max` over a non-empty list.  The empty case yields 0, which is exactly the
`default=0` the location branch of the coverage code passes; the postal
branch only calls it on non-empty lists. -/
noncomputable def pyMax : List ℝ → ℝ
  | [] => 0
  | x :: xs => xs.foldl max x

/-- Metric-dictionary keys (the fixed vocabulary of
`MarketMetrics.calculate_metrics`). -/
def k_connection_rate : String := "connection_rate"

def k_avg_bids_per_search : String := "avg_bids_per_search"

def k_med_bids_per_search : String := "med_bids_per_search"

def k_pct_searches_with_bids : String := "pct_searches_with_bids"

def k_search_density : String := "search_density"

def k_connection_density : String := "connection_density"

def k_coverage_ratio : String := "coverage_ratio"

def k_active_coverage_ratio : String := "active_coverage_ratio"

def k_avg_service_radius : String := "avg_service_radius"

def k_avg_offer_distance : String := "avg_offer_distance"

def k_med_offer_distance : String := "med_offer_distance"

def k_avg_bid_distance : String := "avg_bid_distance"

def k_med_bid_distance : String := "med_bid_distance"

def k_avg_connection_distance : String := "avg_connection_distance"

def k_med_connection_distance : String := "med_connection_distance"

def k_avg_offer_score : String := "avg_offer_score"

def k_med_offer_score : String := "med_offer_score"

def k_avg_bid_score : String := "avg_bid_score"

def k_med_bid_score : String := "med_bid_score"

def k_avg_connection_score : String := "avg_connection_score"

def k_med_connection_score : String := "med_connection_score"

/-- `GeographicMetrics` (simulation/metrics.py): the recorded search and
connection points. -/
structure GeographicMetrics where
  search_points : List (ℝ × ℝ)
  connection_points : List (ℝ × ℝ)

/-- `GeographicMetrics.add_search`. -/
noncomputable def GeographicMetrics.add_search (gm : GeographicMetrics)
    (r : SearchResult) : GeographicMetrics :=
  { search_points := gm.search_points ++ [(r.latitude, r.longitude)],
    connection_points :=
      if r.connections.isEmpty then gm.connection_points
      else gm.connection_points ++ [(r.latitude, r.longitude)] }

/-- The cleaners grouped under one postal code by the coverage computation:
registered cleaners whose postal code is truthy (non-`None`, non-empty) and
equal to the key. -/
noncomputable def pcGroup (m : Market) (code : String) : List Cleaner :=
  (m.cleaners.map (fun e => e.2)).filter (fun c =>
    match c.postal_code with
    | some p => !(p == "") && (p == code)
    | none => false)

/-- Per-postal-code covered area summed by the coverage computation: for each
postal code with (active, when `onlyActive`) cleaners,
`min(π·max_radius², area)`; other postal codes contribute 0. -/
noncomputable def postalCovered (m : Market) (pcs : List (String × PostalCode))
    (onlyActive : Bool) : ℝ :=
  (pcs.map (fun e =>
    let cs0 := pcGroup m e.1
    let cs := if onlyActive then cs0.filter (fun c => c.bidding_active) else cs0
    match cs with
    | [] => (0 : ℝ)
    | c :: rest =>
      min (Real.pi * (pyMax ((c :: rest).map (fun x => x.service_radius))) ^ 2)
        (e.2.area.getD 0))).sum

/-- The bid-active cleaners of a market, in registry order. -/
noncomputable def activeCleaners (m : Market) : List Cleaner :=
  (m.cleaners.map (fun e => e.2)).filter (fun c => c.bidding_active)

/-- The trailing `avg_service_radius` entry, present when any cleaner is
bid-active. -/
noncomputable def avgRadiusTail (m : Market) : List (String × ℝ) :=
  match activeCleaners m with
  | [] => []
  | c :: rest => [(k_avg_service_radius, npMean ((c :: rest).map (fun x => x.service_radius)))]

/-- `GeographicMetrics.calculate_coverage_metrics`: empty dict with no
recorded search points; the all-zero dict when the market's total area is
not positive; otherwise densities plus the coverage ratios of the
postal-code branch (taken when `postal_codes` is truthy, i.e. present and
non-empty) or of the location branch (which recomputes the total area as
π·radius² and fails — `none` — when the radius is missing). -/
noncomputable def GeographicMetrics.calculate_coverage_metrics
    (gm : GeographicMetrics) (m : Market) : Option (List (String × ℝ)) :=
  if gm.search_points.isEmpty then some []
  else
    match m.total_area with
    | none => none
    | some ta =>
      if ta ≤ 0 then
        some [(k_search_density, 0), (k_connection_density, 0),
              (k_coverage_ratio, 0), (k_active_coverage_ratio, 0)]
      else
        let m1 : List (String × ℝ) :=
          [(k_search_density, (gm.search_points.length : ℝ) / ta),
           (k_connection_density, (gm.connection_points.length : ℝ) / ta)]
        match m.postal_codes with
        | some (p :: ps) =>
          let covered := postalCovered m (p :: ps) false
          let activeCovered := postalCovered m (p :: ps) true
          some (m1 ++ [(k_coverage_ratio, covered / ta),
                       (k_active_coverage_ratio, activeCovered / ta)] ++ avgRadiusTail m)
        | _ =>
          match m.radius_km with
          | none => none
          | some r =>
            let ta2 := Real.pi * r ^ 2
            let maxR := pyMax (m.cleaners.map (fun e => e.2.service_radius))
            let covered := min (Real.pi * maxR ^ 2 * (m.cleaners.length : ℝ)) ta2
            let activeCovered : ℝ :=
              match activeCleaners m with
              | [] => 0
              | a :: rest =>
                min (Real.pi * (pyMax ((a :: rest).map (fun x => x.service_radius))) ^ 2 *
                  ((a :: rest).length : ℝ)) ta2
            some (m1 ++ [(k_coverage_ratio, covered / ta2),
                         (k_active_coverage_ratio, activeCovered / ta2)] ++ avgRadiusTail m)

/-- `MarketMetrics` (simulation/metrics.py); the `distances` and
`cleaner_scores` defaultdicts are split into their three fixed keys. -/
structure MarketMetrics where
  geographic : GeographicMetrics
  search_count : ℕ
  connection_count : ℕ
  bid_counts : List ℕ
  distances_offer : List ℝ
  distances_bid : List ℝ
  distances_connection : List ℝ
  scores_offer : List ℝ
  scores_bid : List ℝ
  scores_connection : List ℝ

/-- A freshly constructed `MarketMetrics()`. -/
def MarketMetrics.init : MarketMetrics :=
  ⟨⟨[], []⟩, 0, 0, [], [], [], [], [], [], []⟩

/-- `MarketMetrics.add_result`. -/
noncomputable def MarketMetrics.add_result (mm : MarketMetrics) (r : SearchResult) :
    MarketMetrics :=
  { geographic := mm.geographic.add_search r,
    search_count := mm.search_count + 1,
    connection_count := mm.connection_count + r.connections.length,
    bid_counts := mm.bid_counts ++ [r.bids.length],
    distances_offer := mm.distances_offer ++ r.offers.map (fun o => o.distance),
    distances_bid := mm.distances_bid ++ r.bids.map (fun b => b.distance),
    distances_connection := mm.distances_connection ++ r.connections.map (fun c => c.distance),
    scores_offer := mm.scores_offer ++ r.offers.map (fun o => o.cleaner_score),
    scores_bid := mm.scores_bid ++ r.bids.map (fun b => b.cleaner_score),
    scores_connection := mm.scores_connection ++ r.connections.map (fun c => c.cleaner_score) }

/-- The pair of `avg_…`/`med_…` entries contributed by one non-empty
category list. -/
noncomputable def statPair (ka km : String) (l : List ℝ) : List (String × ℝ) :=
  if l.isEmpty then [] else [(ka, npMean l), (km, npMedian l)]

/-- `MarketMetrics.calculate_metrics`: connection rate, bid statistics,
per-category distance and score statistics, then the geographic coverage
entries, in the source's insertion order. -/
noncomputable def MarketMetrics.calculate_metrics (mm : MarketMetrics) (m : Market) :
    Option (List (String × ℝ)) :=
  let base : List (String × ℝ) :=
    [(k_connection_rate,
      if 0 < mm.search_count then (mm.connection_count : ℝ) / (mm.search_count : ℝ) else 0)]
  let bidM : List (String × ℝ) :=
    if mm.bid_counts.isEmpty then []
    else
      [(k_avg_bids_per_search, npMean (mm.bid_counts.map (fun n => (n : ℝ)))),
       (k_med_bids_per_search, npMedian (mm.bid_counts.map (fun n => (n : ℝ)))),
       (k_pct_searches_with_bids,
        npMean (mm.bid_counts.map (fun n => if 0 < n then (1 : ℝ) else 0)))]
  let distM : List (String × ℝ) :=
    statPair k_avg_offer_distance k_med_offer_distance mm.distances_offer ++
    statPair k_avg_bid_distance k_med_bid_distance mm.distances_bid ++
    statPair k_avg_connection_distance k_med_connection_distance mm.distances_connection
  let scoreM : List (String × ℝ) :=
    statPair k_avg_offer_score k_med_offer_score mm.scores_offer ++
    statPair k_avg_bid_score k_med_bid_score mm.scores_bid ++
    statPair k_avg_connection_score k_med_connection_score mm.scores_connection
  (mm.geographic.calculate_coverage_metrics m).map
    (fun cov => base ++ bidM ++ distM ++ scoreM ++ cov)

/-- Value of a key in an (optional) metrics dictionary. -/
noncomputable def getMetric (o : Option (List (String × ℝ))) (k : String) : Option ℝ :=
  o.bind (fun d => dictGet d k)

/-- The per-result invariant of claim C1, decidably: at most one connection,
and any connection's contractor id occurs among the result's bids. -/
def resultOK (r : SearchResult) : Bool :=
  decide (r.connections.length ≤ 1) &&
  r.connections.all (fun c => r.bids.any (fun b => b.contractor_id == c.contractor_id))

/-- `resultOK` over an entire (possibly aborted) run. -/
def allSearchOK : Option (List SearchResult) → Bool
  | none => true
  | some rs => rs.all resultOK

/-- Equality of two search results on every field except the generated
`search_id`: same location, same offers, same bids, same connection. -/
def SearchResult.sameFields (r1 r2 : SearchResult) : Prop :=
  r1.latitude = r2.latitude ∧ r1.longitude = r2.longitude ∧
  r1.postal_code = r2.postal_code ∧ r1.offers = r2.offers ∧
  r1.bids = r2.bids ∧ r1.connections = r2.connections

/-- Two runs crash alike or produce pointwise `sameFields`-equal ordered
result sequences. -/
def sameRunResults : Option (List SearchResult) → Option (List SearchResult) → Prop
  | none, none => True
  | some l1, some l2 => List.Forall₂ SearchResult.sameFields l1 l2
  | _, _ => False

/-- String literals used by the concrete instances below. -/
def s10001 : String := "10001"

def idC7 : String := "C7"

def idC1 : String := "C1"

/-- A valid active cleaner used by concrete instances. -/
noncomputable def cEx : Cleaner :=
  { contractor_id := idC1, latitude := 0, longitude := 0, postal_code := none,
    bidding_active := true, assignment_active := true, cleaner_score := 1/2,
    service_radius := 10, team_size := 1, active_connections := 0,
    active_connection_ratio := 0 }

/-- A postal code with no recorded area. -/
noncomputable def pcEx : PostalCode :=
  { latitude := 40.75, longitude := -73.99, postal_code := s10001,
    market := "M7", str_tam := 100, area := none }

/-- A postal-code market holding only `pcEx`, with no cleaners yet. -/
noncomputable def mEx7 : Market :=
  { market_id := "M7", postal_codes := some [(s10001, pcEx)],
    center_lat := none, center_lon := none, radius_km := none, cleaners := [] }

/-- A cleaner whose postal code is a key of `mEx7`. -/
noncomputable def cEx7 : Cleaner := { cEx with contractor_id := idC7, postal_code := some s10001 }

/-- A location-based market at the antimeridian with a very large (valid)
radius. -/
noncomputable def mEx10 : Market :=
  { market_id := "M10", postal_codes := none, center_lat := some 0,
    center_lon := some 180, radius_km := some 10101, cleaners := [] }

/-- A draw stream whose first draw is 0 and whose later draws are 1. -/
noncomputable def gEx10 : RNG := ⟨fun n => if n = 0 then 0 else 1, 0⟩

/-- A valid center close to the north pole. -/
noncomputable def locEx10 : GeoLocation := ⟨89.5, 0⟩

/-- A seeded configuration with the source's default probabilities. -/
noncomputable def cfgEx : SimulationConfig :=
  { search_iterations := 2, supply_configuration_iterations := 1,
    random_seed := some 42, search_radius_km := 10,
    cleaner_base_bid_probability := 14/100, connection_base_probability := 2/5,
    distance_decay_factor := 1/5, max_connections_per_member := 10,
    min_capacity_factor := 1/10, parallel_execution := false, max_workers := 4 }

/-- A small location-based market with no cleaners. -/
noncomputable def mEx5 : Market :=
  { market_id := "M5", postal_codes := none, center_lat := some 0,
    center_lon := some 0, radius_km := some 1, cleaners := [] }

/-- Geographic metrics holding a single recorded search point. -/
noncomputable def gmEx : GeographicMetrics := ⟨[(0, 0)], []⟩

/-- Value stored by `dictInsert` under its own key. -/
theorem dictGet_dictInsert_self {α : Type} (l : List (String × α)) (k : String) (v : α) :
    dictGet (dictInsert l k v) k = some v := by
  induction l with
  | nil => simp [dictInsert, dictGet]
  | cons e rest ih =>
    obtain ⟨k', v'⟩ := e
    by_cases h : k' = k
    · simp [dictInsert, h, dictGet]
    · simpa [dictInsert, h, dictGet, List.find?_cons, decide_eq_false h] using ih

/-- `dictInsert` leaves every other key untouched. -/
theorem dictGet_dictInsert_ne {α : Type} (l : List (String × α)) (k k' : String) (v : α)
    (h : k' ≠ k) : dictGet (dictInsert l k v) k' = dictGet l k' := by
  induction l with
  | nil => simp [dictInsert, dictGet, decide_eq_false (Ne.symm h)]
  | cons e rest ih =>
    obtain ⟨ke, ve⟩ := e
    by_cases he : ke = k
    · subst he
      simp [dictInsert, dictGet, List.find?_cons, decide_eq_false (Ne.symm h),
        decide_eq_false h]
    · by_cases he' : ke = k'
      · simp [dictInsert, he, dictGet, List.find?_cons, he', h]
      · simpa [dictInsert, he, dictGet, List.find?_cons, decide_eq_false he'] using ih

/-- C7.  `Market.add_cleaner` raises on a postal-code market exactly when the
cleaner's postal code is not a key of the market's postal-code mapping (a
`None` postal code never being a key), and on a location market exactly when
the haversine distance from the market center to the cleaner exceeds
`radius_km`; on success the cleaner is stored under its contractor id,
replacing any previous entry under that id and leaving every other entry and
every other market field unchanged. -/
theorem claim_C7 (m : Market) (c : Cleaner) :
    (∀ pcs, m.postal_codes = some pcs →
      ((m.add_cleaner c).isSome = true ↔
        ∃ pc, c.postal_code = some pc ∧ dictHasKey pcs pc = true)) ∧
    (∀ clat clon r, m.postal_codes = none → m.center_lat = some clat →
      m.center_lon = some clon → m.radius_km = some r →
      ((m.add_cleaner c).isSome = true ↔
        calculate_haversine_distance clat clon c.latitude c.longitude ≤ r)) ∧
    (∀ m', m.add_cleaner c = some m' →
      m'.market_id = m.market_id ∧ m'.postal_codes = m.postal_codes ∧
      m'.center_lat = m.center_lat ∧ m'.center_lon = m.center_lon ∧
      m'.radius_km = m.radius_km ∧
      dictGet m'.cleaners c.contractor_id = some c ∧
      ∀ k, k ≠ c.contractor_id → dictGet m'.cleaners k = dictGet m.cleaners k) := by
  refine ⟨?_, ?_, ?_⟩
  · intro pcs hp
    unfold Market.add_cleaner
    rw [hp]
    cases hc : c.postal_code with
    | none => simp
    | some pc =>
      by_cases hk : dictHasKey pcs pc = true
      · simp [hk]
      · simp only [hk, if_false, Bool.false_eq_true, Option.isSome_none]
        simp [hk]
  · intro clat clon r h0 h1 h2 h3
    unfold Market.add_cleaner
    rw [h0, h1, h2, h3]
    by_cases hlt : r < calculate_haversine_distance clat clon c.latitude c.longitude
    · simp [hlt, not_le.mpr hlt]
    · simp [hlt, le_of_not_lt hlt]
  · intro m' hm'
    unfold Market.add_cleaner at hm'
    repeat' split at hm'
    all_goals cases hm'
    all_goals exact ⟨rfl, rfl, rfl, rfl, rfl, dictGet_dictInsert_self _ _ _,
      fun k hkne => dictGet_dictInsert_ne _ _ _ _ hkne⟩

/-- C7 witness: adding the cleaner `cEx7`, whose postal code `10001` is a key
of the postal-code market `mEx7`, succeeds. -/
theorem claim_C7_witness : (mEx7.add_cleaner cEx7).isSome = true :=
  ((claim_C7 mEx7 cEx7).1 [(s10001, pcEx)] rfl).mpr ⟨s10001, rfl, by decide⟩

/-- Monotonicity of the `[0,1]` clamp `max(0, min(1, ·))`. -/
theorem clamp01_mono {x y : ℝ} (h : x ≤ y) : max 0 (min 1 x) ≤ max 0 (min 1 y) :=
  max_le_max le_rfl (min_le_min le_rfl h)

/-- The capacity factor is at least its floor 0.1, hence positive. -/
theorem capacity_factor_pos (c : Cleaner) : 0 < c.calculate_capacity_factor :=
  lt_of_lt_of_le (by norm_num) (le_max_left _ _)

/-- C3 counterexample: the cleaner `cEx` is bid-active with score 1/2, yet
with `base_probability = 0` — allowed by the claim's `base_probability ∈
[0,1]` — its bid probability is exactly 0, refuting "returns 0 … only
[when `bidding_active` is false]" and "never exactly zero". -/
theorem claim_C3_counterexample :
    cEx.bidding_active = true ∧ cEx.calculate_bid_probability 0 (1/5) 0 = 0 := by
  refine ⟨rfl, ?_⟩
  unfold Cleaner.calculate_bid_probability
  norm_num [cEx]

/-- C3 (amended).  For `distance ≥ 0`, `distance_decay_factor ≥ 0`, and
`base_probability` and `cleaner_score` in `(0,1]` — the claim's `[0,1]`
bounds strengthened to exclude the zero factors that falsify it —
`Cleaner.calculate_bid_probability` lies in `[0,1]`, is zero exactly when
`bidding_active` is false, and otherwise equals the product
`base × score × capacity × exp(-decay × distance)` clamped to `[0,1]`. -/
theorem claim_C3_amended (c : Cleaner) (d ddf bp : ℝ)
    (hd : 0 ≤ d) (hddf : 0 ≤ ddf) (hbp0 : 0 < bp) (hbp1 : bp ≤ 1)
    (hs0 : 0 < c.cleaner_score) (hs1 : c.cleaner_score ≤ 1) :
    (0 ≤ c.calculate_bid_probability d ddf bp ∧
      c.calculate_bid_probability d ddf bp ≤ 1) ∧
    (c.calculate_bid_probability d ddf bp = 0 ↔ c.bidding_active = false) ∧
    (c.bidding_active = true →
      c.calculate_bid_probability d ddf bp =
        max 0 (min 1 (bp * c.cleaner_score * c.calculate_capacity_factor *
          Real.exp (-ddf * d)))) := by
  have hP : 0 < bp * c.cleaner_score * c.calculate_capacity_factor *
      Real.exp (-ddf * d) :=
    mul_pos (mul_pos (mul_pos hbp0 hs0) (capacity_factor_pos c)) (Real.exp_pos _)
  unfold Cleaner.calculate_bid_probability
  cases hb : c.bidding_active with
  | false =>
    simp only [Bool.false_eq_true, if_false]
    refine ⟨⟨le_rfl, by norm_num⟩, by simp [hb], ?_⟩
    intro ht
    simp at ht
  | true =>
    rw [if_pos rfl]
    refine ⟨⟨le_max_left _ _, max_le (by norm_num) (min_le_left _ _)⟩, ?_, fun _ => rfl⟩
    have hpos : 0 < max 0 (min 1 (bp * c.cleaner_score * c.calculate_capacity_factor *
        Real.exp (-ddf * d))) :=
      lt_max_of_lt_right (lt_min one_pos hP)
    constructor
    · intro h0
      exact absurd h0 (ne_of_gt hpos)
    · intro hfalse
      cases hfalse

/-- C3 witness: the amended claim instantiated at `cEx` (active, score 1/2),
distance 0, decay 1/5 and base probability 1/2. -/
theorem claim_C3_witness :
    ((0:ℝ) ≤ 0 ∧ (0:ℝ) ≤ 1/5 ∧ (0:ℝ) < 1/2 ∧ (1:ℝ)/2 ≤ 1 ∧
      0 < cEx.cleaner_score ∧ cEx.cleaner_score ≤ 1) ∧
    (0 ≤ cEx.calculate_bid_probability 0 (1/5) (1/2) ∧
      cEx.calculate_bid_probability 0 (1/5) (1/2) ≤ 1) ∧
    (cEx.calculate_bid_probability 0 (1/5) (1/2) = 0 ↔ cEx.bidding_active = false) ∧
    (cEx.bidding_active = true →
      cEx.calculate_bid_probability 0 (1/5) (1/2) =
        max 0 (min 1 ((1:ℝ)/2 * cEx.cleaner_score * cEx.calculate_capacity_factor *
          Real.exp (-(1/5) * 0)))) :=
  ⟨⟨le_rfl, by norm_num, by norm_num, by norm_num, by norm_num [cEx], by norm_num [cEx]⟩,
   claim_C3_amended cEx 0 (1/5) (1/2) le_rfl (by norm_num) (by norm_num) (by norm_num)
     (by norm_num [cEx]) (by norm_num [cEx])⟩

/-- Bid probability is monotone in the score between two cleaners agreeing on
activity and capacity. -/
theorem bid_probability_score_mono (c1 c2 : Cleaner) (d ddf bp : ℝ) (hbp : 0 ≤ bp)
    (ha : c1.bidding_active = c2.bidding_active)
    (hcf : c1.calculate_capacity_factor = c2.calculate_capacity_factor)
    (hs1 : 0 ≤ c1.cleaner_score) (hs : c1.cleaner_score ≤ c2.cleaner_score) :
    c1.calculate_bid_probability d ddf bp ≤ c2.calculate_bid_probability d ddf bp := by
  unfold Cleaner.calculate_bid_probability
  rw [ha]
  cases hb : c2.bidding_active with
  | false => simp
  | true =>
    rw [if_pos rfl, if_pos rfl]
    apply clamp01_mono
    rw [hcf]
    exact mul_le_mul_of_nonneg_right
      (mul_le_mul_of_nonneg_right (mul_le_mul_of_nonneg_left hs hbp)
        (le_of_lt (capacity_factor_pos c2)))
      (le_of_lt (Real.exp_pos _))

/-- C8.  With all other attributes fixed and non-negative decay, base
probability and score, the bid probability is non-increasing in distance and
non-decreasing in the cleaner score. -/
theorem claim_C8 (c : Cleaner) (ddf bp : ℝ) (hddf : 0 ≤ ddf) (hbp : 0 ≤ bp)
    (hs : 0 ≤ c.cleaner_score) :
    (∀ d1 d2, 0 ≤ d1 → d1 ≤ d2 →
      c.calculate_bid_probability d2 ddf bp ≤ c.calculate_bid_probability d1 ddf bp) ∧
    (∀ d s1 s2, 0 ≤ s1 → s1 ≤ s2 → s2 ≤ 1 →
      ({c with cleaner_score := s1} : Cleaner).calculate_bid_probability d ddf bp ≤
        ({c with cleaner_score := s2} : Cleaner).calculate_bid_probability d ddf bp) := by
  have hcf : (0:ℝ) ≤ c.calculate_capacity_factor := le_of_lt (capacity_factor_pos c)
  constructor
  · intro d1 d2 hd1 hd12
    unfold Cleaner.calculate_bid_probability
    cases hb : c.bidding_active with
    | false => simp
    | true =>
      simp only [if_true]
      apply clamp01_mono
      apply mul_le_mul_of_nonneg_left
      · exact Real.exp_le_exp.mpr (by nlinarith)
      · exact mul_nonneg (mul_nonneg hbp hs) hcf
  · intro d s1 s2 hs1 hs12 hs2
    exact bid_probability_score_mono _ _ d ddf bp hbp rfl rfl hs1 hs12

/-- C8 witness: the two monotonicities instantiated at `cEx`, distances 0 and
1 and scores 1/4 and 1/2. -/
theorem claim_C8_witness :
    ((0:ℝ) ≤ 1/5 ∧ (0:ℝ) ≤ 14/100 ∧ 0 ≤ cEx.cleaner_score) ∧
    cEx.calculate_bid_probability 1 (1/5) (14/100) ≤
      cEx.calculate_bid_probability 0 (1/5) (14/100) ∧
    ({cEx with cleaner_score := 1/4} : Cleaner).calculate_bid_probability 0 (1/5) (14/100) ≤
      ({cEx with cleaner_score := 1/2} : Cleaner).calculate_bid_probability 0 (1/5) (14/100) :=
  ⟨⟨by norm_num, by norm_num, by norm_num [cEx]⟩,
   (claim_C8 cEx (1/5) (14/100) (by norm_num) (by norm_num) (by norm_num [cEx])).1 0 1
     le_rfl (by norm_num),
   (claim_C8 cEx (1/5) (14/100) (by norm_num) (by norm_num) (by norm_num [cEx])).2 0
     (1/4) (1/2) (by norm_num) (by norm_num) (by norm_num)⟩

/-- Inserting into the stable descending sort is a permutation of consing. -/
theorem insertBid_perm (x : Bid) (l : List Bid) : List.Perm (insertBid x l) (x :: l) := by
  induction l with
  | nil => exact List.Perm.refl _
  | cons c cs ih =>
    unfold insertBid
    by_cases h : c.cleaner_score ≤ x.cleaner_score
    · rw [if_pos h]
    · rw [if_neg h]
      exact (List.Perm.cons c ih).trans (List.Perm.swap x c cs)

/-- The sorted bid list is a permutation of the original bids. -/
theorem sortBidsDesc_perm (l : List Bid) : List.Perm (sortBidsDesc l) l := by
  induction l with
  | nil => exact List.Perm.refl _
  | cons x xs ih =>
    unfold sortBidsDesc
    exact (insertBid_perm x (sortBidsDesc xs)).trans (List.Perm.cons x ih)

/-- Inserting into a descending-sorted list keeps it sorted. -/
theorem insertBid_sorted (x : Bid) (l : List Bid)
    (hl : List.Sorted (fun a b : Bid => b.cleaner_score ≤ a.cleaner_score) l) :
    List.Sorted (fun a b : Bid => b.cleaner_score ≤ a.cleaner_score) (insertBid x l) := by
  induction l with
  | nil => simp [insertBid]
  | cons c cs ih =>
    rw [List.sorted_cons] at hl
    unfold insertBid
    by_cases h : c.cleaner_score ≤ x.cleaner_score
    · rw [if_pos h, List.sorted_cons]
      refine ⟨?_, List.sorted_cons.mpr hl⟩
      intro b hb
      rcases List.mem_cons.mp hb with hbx | hb'
      · rw [hbx]; exact h
      · exact le_trans (hl.1 b hb') h
    · rw [if_neg h, List.sorted_cons]
      refine ⟨?_, ih hl.2⟩
      intro b hb
      have hmem := (insertBid_perm x cs).mem_iff.mp hb
      rcases List.mem_cons.mp hmem with hbx | hb'
      · rw [hbx]; exact (not_le.mp h).le
      · exact hl.1 b hb'

/-- The sorted bid list is descending by score. -/
theorem sortBidsDesc_sorted (l : List Bid) :
    List.Sorted (fun a b : Bid => b.cleaner_score ≤ a.cleaner_score) (sortBidsDesc l) := by
  induction l with
  | nil => simp [sortBidsDesc]
  | cons x xs ih => exact insertBid_sorted x _ ih

/-- Filtering one score class through an insertion keeps the original
relative order (the stability equation). -/
theorem insertBid_filter (x : Bid) (l : List Bid) (s : ℝ) :
    (insertBid x l).filter (fun b => decide (b.cleaner_score = s)) =
      if x.cleaner_score = s then
        x :: l.filter (fun b => decide (b.cleaner_score = s))
      else l.filter (fun b => decide (b.cleaner_score = s)) := by
  induction l with
  | nil =>
    by_cases hx : x.cleaner_score = s <;> simp [insertBid, hx]
  | cons c cs ih =>
    unfold insertBid
    by_cases h : c.cleaner_score ≤ x.cleaner_score
    · rw [if_pos h]
      by_cases hx : x.cleaner_score = s <;> simp [List.filter_cons, hx]
    · rw [if_neg h]
      by_cases hx : x.cleaner_score = s
      · have hc : ¬(c.cleaner_score = s) := by
          intro hcs
          exact h (le_of_eq (hcs.trans hx.symm))
        simp [List.filter_cons, hc, hx, ih]
      · by_cases hc : c.cleaner_score = s <;> simp [List.filter_cons, hc, hx, ih]

/-- Stability of the descending sort: each score class keeps its original
order, hence ties are broken first-come. -/
theorem sortBidsDesc_filter (l : List Bid) (s : ℝ) :
    (sortBidsDesc l).filter (fun b => decide (b.cleaner_score = s)) =
      l.filter (fun b => decide (b.cleaner_score = s)) := by
  induction l with
  | nil => rfl
  | cons x xs ih =>
    unfold sortBidsDesc
    rw [insertBid_filter]
    by_cases hx : x.cleaner_score = s <;> simp [List.filter_cons, hx, ih]

/-- The connection walk examines the sorted bids in order, one draw each;
it returns the first success as the sole connection (advancing the stream
past it) or nothing after failing every bid. -/
theorem connWalk_spec (cfg : SimulationConfig) (l : List Bid) (g : RNG) :
    (∃ i, i < l.length ∧
      g.stream (g.pos + i) < connProb cfg (l.getD i defaultBid) ∧
      (∀ j, j < i → ¬ g.stream (g.pos + j) < connProb cfg (l.getD j defaultBid)) ∧
      connWalk cfg l g = ([mkConnection (l.getD i defaultBid)], ⟨g.stream, g.pos + i + 1⟩)) ∨
    ((∀ j, j < l.length → ¬ g.stream (g.pos + j) < connProb cfg (l.getD j defaultBid)) ∧
      connWalk cfg l g = ([], ⟨g.stream, g.pos + l.length⟩)) := by
  induction l generalizing g with
  | nil =>
    right
    exact ⟨fun j hj => absurd hj (Nat.not_lt_zero j), by simp [connWalk]⟩
  | cons b bs ih =>
    by_cases h : g.stream g.pos < connProb cfg b
    · left
      refine ⟨0, Nat.succ_pos _, ?_, ?_, ?_⟩
      · simpa using h
      · intro j hj
        exact absurd hj (Nat.not_lt_zero j)
      · simp [connWalk, h]
    · rcases ih ⟨g.stream, g.pos + 1⟩ with ⟨i, hi, hsucc, hfail, heq⟩ | ⟨hfail, heq⟩
      · left
        refine ⟨i + 1, Nat.succ_lt_succ hi, ?_, ?_, ?_⟩
        · have harith : g.pos + (i + 1) = g.pos + 1 + i := by omega
          rw [harith, List.getD_cons_succ]
          exact hsucc
        · intro j hj
          cases j with
          | zero => simpa using h
          | succ j' =>
            have hj' : j' < i := Nat.lt_of_succ_lt_succ hj
            have harith : g.pos + (j' + 1) = g.pos + 1 + j' := by omega
            rw [harith, List.getD_cons_succ]
            exact hfail j' hj'
        · have harith : g.pos + (i + 1) + 1 = g.pos + 1 + i + 1 := by omega
          rw [List.getD_cons_succ, harith]
          simpa [connWalk, h] using heq
      · right
        constructor
        · intro j hj
          cases j with
          | zero => simpa using h
          | succ j' =>
            have hj' : j' < bs.length := Nat.lt_of_succ_lt_succ hj
            have harith : g.pos + (j' + 1) = g.pos + 1 + j' := by omega
            rw [harith, List.getD_cons_succ]
            exact hfail j' hj'
        · have harith : g.pos + (b :: bs).length = g.pos + 1 + bs.length := by
            simp [List.length_cons]
            omega
          rw [harith]
          simpa [connWalk, h] using heq

/-- C6.  In the connection step the bids are examined in the order given by
the stable descending-by-`cleaner_score` sort (a permutation of the bids,
sorted, ties kept in original order); the `i`-th examined bid is tested
against the `i`-th uniform draw with probability
`connection_base_probability × score × exp(-decay × distance)` (`connProb`);
the first success becomes the sole connection and examination stops, and if
every examined bid fails the search has zero connections. -/
theorem claim_C6 (cfg : SimulationConfig) (bids : List Bid) (g : RNG) :
    List.Perm (sortBidsDesc bids) bids ∧
    List.Sorted (fun a b : Bid => b.cleaner_score ≤ a.cleaner_score) (sortBidsDesc bids) ∧
    (∀ s : ℝ, (sortBidsDesc bids).filter (fun b => decide (b.cleaner_score = s)) =
      bids.filter (fun b => decide (b.cleaner_score = s))) ∧
    ((∃ i, i < (sortBidsDesc bids).length ∧
        g.stream (g.pos + i) < connProb cfg ((sortBidsDesc bids).getD i defaultBid) ∧
        (∀ j, j < i → ¬ g.stream (g.pos + j) <
          connProb cfg ((sortBidsDesc bids).getD j defaultBid)) ∧
        (simulateConnections cfg bids g).1 =
          [mkConnection ((sortBidsDesc bids).getD i defaultBid)]) ∨
      ((∀ j, j < (sortBidsDesc bids).length → ¬ g.stream (g.pos + j) <
          connProb cfg ((sortBidsDesc bids).getD j defaultBid)) ∧
        (simulateConnections cfg bids g).1 = [])) := by
  refine ⟨sortBidsDesc_perm bids, sortBidsDesc_sorted bids,
    fun s => sortBidsDesc_filter bids s, ?_⟩
  cases hb : bids with
  | nil =>
    right
    constructor
    · intro j hj
      simp [sortBidsDesc] at hj
    · simp [simulateConnections]
  | cons x xs =>
    rcases connWalk_spec cfg (sortBidsDesc (x :: xs)) g with
      ⟨i, hi, hsucc, hfail, heq⟩ | ⟨hfail, heq⟩
    · left
      exact ⟨i, hi, hsucc, hfail, by simp [simulateConnections, heq]⟩
    · right
      exact ⟨hfail, by simp [simulateConnections, heq]⟩

/-- The connection step yields either no connection or a single connection
built from one of the original bids. -/
theorem simulateConnections_cases (cfg : SimulationConfig) (bids : List Bid) (g : RNG) :
    (simulateConnections cfg bids g).1 = [] ∨
    ∃ b, b ∈ bids ∧ (simulateConnections cfg bids g).1 = [mkConnection b] := by
  cases hb : bids with
  | nil =>
    left
    simp [simulateConnections]
  | cons x xs =>
    rcases connWalk_spec cfg (sortBidsDesc (x :: xs)) g with
      ⟨i, hi, _, _, heq⟩ | ⟨_, heq⟩
    · right
      refine ⟨(sortBidsDesc (x :: xs)).getD i defaultBid, ?_,
        by simp [simulateConnections, heq]⟩
      have hmem : (sortBidsDesc (x :: xs)).getD i defaultBid ∈ sortBidsDesc (x :: xs) := by
        rw [List.getD_eq_getElem _ _ hi]
        exact List.getElem_mem hi
      exact (sortBidsDesc_perm (x :: xs)).mem_iff.mp hmem
    · left
      simp [simulateConnections, heq]

/-- The search core produces either no connection or one connection built
from one of that search's bids. -/
theorem simulateSearchCore_connections (m : Market) (cfg : SimulationConfig) (g : RNG)
    (p : SearchData × RNG) (h : simulateSearchCore m cfg g = some p) :
    p.1.connections = [] ∨
    ∃ b, b ∈ p.1.bids ∧ p.1.connections = [mkConnection b] := by
  unfold simulateSearchCore at h
  cases hs : m.sample_location_by_tam g with
  | none => rw [hs] at h; cases h
  | some q =>
    obtain ⟨⟨lat, lon, pc⟩, g1⟩ := q
    simp only [hs] at h
    by_cases hv : -90 ≤ lat ∧ lat ≤ 90 ∧ -180 ≤ lon ∧ lon ≤ 180
    · rw [if_pos hv] at h
      by_cases hrad : 0 < cfg.search_radius_km
      · rw [if_pos hrad] at h
        by_cases he : (simulateBids cfg
            (generate_offers (m.get_cleaners_in_range lat lon cfg.search_radius_km) lat lon)
            g1).1.isEmpty
        · rw [if_pos he, Option.some_inj] at h
          subst h
          left
          rfl
        · rw [if_neg he, Option.some_inj] at h
          subst h
          exact simulateConnections_cases cfg _ _
      · rw [if_neg hrad] at h
        cases h
    · rw [if_neg hv] at h
      cases h

/-- A result whose connections are empty or a single connection from its own
bids satisfies `resultOK`. -/
theorem resultOK_of_cases (r : SearchResult)
    (h : r.connections = [] ∨ ∃ b, b ∈ r.bids ∧ r.connections = [mkConnection b]) :
    resultOK r = true := by
  rcases h with h | ⟨b, hb, h⟩
  · simp [resultOK, h]
  · simp only [resultOK, h, List.length_cons, List.length_nil, List.all_cons, List.all_nil,
      Bool.and_true, Bool.and_eq_true, decide_eq_true_eq]
    refine ⟨by norm_num, ?_⟩
    exact List.any_eq_true.mpr ⟨b, hb, by simp [mkConnection]⟩

/-- Every successfully produced search result satisfies `resultOK`. -/
theorem simulate_search_resultOK (uuidStr : ℕ → String) (m : Market)
    (cfg : SimulationConfig) (g : RNG) (uc : ℕ) (r : SearchResult) (g' : RNG) (uc' : ℕ)
    (h : simulate_search uuidStr m cfg g uc = some (r, g', uc')) : resultOK r = true := by
  unfold simulate_search at h
  cases hcore : simulateSearchCore m cfg g with
  | none => rw [hcore] at h; cases h
  | some p =>
    rw [hcore, Option.map_some'] at h
    rw [Option.some_inj] at h
    injection h with h1 h2
    subst h1
    exact resultOK_of_cases _ (simulateSearchCore_connections m cfg g p hcore)

/-- Every result in a (possibly aborted) run loop satisfies `resultOK`. -/
theorem runLoop_resultOK (uuidStr : ℕ → String) (m : Market) (cfg : SimulationConfig) :
    ∀ (n : ℕ) (g : RNG) (uc : ℕ), allSearchOK (runLoop uuidStr m cfg n g uc).1 = true := by
  intro n
  induction n with
  | zero => intro g uc; simp [runLoop, allSearchOK]
  | succ n ih =>
    intro g uc
    cases hs : simulate_search uuidStr m cfg g uc with
    | none => simp [runLoop, hs, allSearchOK]
    | some t =>
      obtain ⟨r, g1, uc1⟩ := t
      have hr := simulate_search_resultOK uuidStr m cfg g uc r g1 uc1 hs
      have htail := ih g1 uc1
      cases hl : (runLoop uuidStr m cfg n g1 uc1) with
      | mk o rest =>
        cases o with
        | none => simp [runLoop, hs, hl, allSearchOK]
        | some rs =>
          rw [hl] at htail
          simp only [allSearchOK] at htail
          simp [runLoop, hs, hl, allSearchOK, List.all_cons, hr, htail]

/-- C1.  Every `SearchResult` produced by `simulate_search` — and hence
every element of `run_simulation`'s output — has at most one connection,
and any present connection carries the contractor id of one of that same
result's bids (`resultOK`). -/
theorem claim_C1 (uuidStr : ℕ → String) (seedStr : ℕ → ℕ → ℝ) (m : Market)
    (cfg : SimulationConfig) (g : RNG) (uc : ℕ) (its : Option ℕ) :
    allSearchOK ((simulate_search uuidStr m cfg g uc).map (fun p => [p.1])) = true ∧
    allSearchOK (run_simulation uuidStr seedStr m cfg its g uc).1 = true := by
  constructor
  · cases hs : simulate_search uuidStr m cfg g uc with
    | none => simp [allSearchOK]
    | some t =>
      obtain ⟨r, g1, uc1⟩ := t
      have hr := simulate_search_resultOK uuidStr m cfg g uc r g1 uc1 hs
      simp [allSearchOK, hr]
  · unfold run_simulation
    exact runLoop_resultOK uuidStr m cfg _ _ _

/-- The run loop started twice from the same random state produces, position
by position, results equal on every field except the generated search id
(which consumes the uuid counter, not the random stream). -/
theorem runLoop_sameFields (uuidStr : ℕ → String) (m : Market) (cfg : SimulationConfig) :
    ∀ (n : ℕ) (g : RNG) (uc1 uc2 : ℕ),
      sameRunResults (runLoop uuidStr m cfg n g uc1).1 (runLoop uuidStr m cfg n g uc2).1 := by
  intro n
  induction n with
  | zero =>
    intro g uc1 uc2
    simp [runLoop, sameRunResults]
  | succ n ih =>
    intro g uc1 uc2
    cases hcore : simulateSearchCore m cfg g with
    | none =>
      have h1 : simulate_search uuidStr m cfg g uc1 = none := by
        simp [simulate_search, hcore]
      have h2 : simulate_search uuidStr m cfg g uc2 = none := by
        simp [simulate_search, hcore]
      simp [runLoop, h1, h2, sameRunResults]
    | some p =>
      obtain ⟨d, g'⟩ := p
      have hs1 : simulate_search uuidStr m cfg g uc1 =
          some ((⟨uuidStr uc1, d.latitude, d.longitude, d.postal_code, d.offers,
            d.bids, d.connections⟩ : SearchResult), g', uc1 + 1) := by
        simp [simulate_search, hcore]
      have hs2 : simulate_search uuidStr m cfg g uc2 =
          some ((⟨uuidStr uc2, d.latitude, d.longitude, d.postal_code, d.offers,
            d.bids, d.connections⟩ : SearchResult), g', uc2 + 1) := by
        simp [simulate_search, hcore]
      have ihh := ih g' (uc1 + 1) (uc2 + 1)
      rcases hl1 : runLoop uuidStr m cfg n g' (uc1 + 1) with ⟨o1, g1, u1⟩
      rcases hl2 : runLoop uuidStr m cfg n g' (uc2 + 1) with ⟨o2, g2, u2⟩
      rw [hl1, hl2] at ihh
      simp only [runLoop, hs1, hs2, hl1, hl2]
      cases o1 with
      | none =>
        cases o2 with
        | none => simp [sameRunResults]
        | some rs2 => exact absurd ihh (by simp [sameRunResults])
      | some rs1 =>
        cases o2 with
        | none => exact absurd ihh (by simp [sameRunResults])
        | some rs2 =>
          simp only [sameRunResults] at ihh ⊢
          exact List.Forall₂.cons ⟨rfl, rfl, rfl, rfl, rfl, rfl⟩ ihh

/-- C2.  With a configured random seed, a second `run_simulation` call with
the same iteration count, immediately after a first one over the same market
and configuration, produces the identical ordered result sequence — equal
field by field: same locations, same offers, same bids, same connection. -/
theorem claim_C2 (uuidStr : ℕ → String) (seedStr : ℕ → ℕ → ℝ) (m : Market)
    (cfg : SimulationConfig) (its : Option ℕ) (s : ℕ) (h : cfg.random_seed = some s)
    (g : RNG) (uc : ℕ) :
    sameRunResults
      (run_simulation uuidStr seedStr m cfg its g uc).1
      (run_simulation uuidStr seedStr m cfg its
        (run_simulation uuidStr seedStr m cfg its g uc).2.1
        (run_simulation uuidStr seedStr m cfg its g uc).2.2).1 := by
  unfold run_simulation
  simp only [h]
  exact runLoop_sameFields uuidStr m cfg _ _ _ _

/-- C2 witness: the reproducibility theorem applied to the seeded
configuration `cfgEx` over the market `mEx5`. -/
theorem claim_C2_witness :
    cfgEx.random_seed = some 42 ∧
    sameRunResults
      (run_simulation (fun _ => "") (fun _ _ => 0) mEx5 cfgEx none gEx10 0).1
      (run_simulation (fun _ => "") (fun _ _ => 0) mEx5 cfgEx none
        (run_simulation (fun _ => "") (fun _ _ => 0) mEx5 cfgEx none gEx10 0).2.1
        (run_simulation (fun _ => "") (fun _ _ => 0) mEx5 cfgEx none gEx10 0).2.2).1 :=
  ⟨rfl, claim_C2 (fun _ => "") (fun _ _ => 0) mEx5 cfgEx none 42 rfl gEx10 0⟩

/-- C4.  When search points have been recorded but the market's total area —
sum of postal-code areas, or π·radius² — is zero, the coverage computation
returns the all-zero metrics dictionary instead of dividing by zero. -/
theorem claim_C4 (gm : GeographicMetrics) (m : Market)
    (h1 : gm.search_points ≠ []) (h2 : m.total_area = some 0) :
    gm.calculate_coverage_metrics m =
      some [(k_search_density, 0), (k_connection_density, 0),
            (k_coverage_ratio, 0), (k_active_coverage_ratio, 0)] := by
  have hne : gm.search_points.isEmpty = false := by
    cases hsp : gm.search_points with
    | nil => exact absurd hsp h1
    | cons a l => rfl
  unfold GeographicMetrics.calculate_coverage_metrics
  simp only [hne, Bool.false_eq_true, if_false, h2]
  rw [if_pos le_rfl]

/-- C4 witness: one recorded search point over the postal-code market `mEx7`,
whose sole postal code has no recorded area, yields the all-zero dictionary. -/
theorem claim_C4_witness :
    gmEx.search_points ≠ [] ∧ mEx7.total_area = some 0 ∧
    gmEx.calculate_coverage_metrics mEx7 =
      some [(k_search_density, 0), (k_connection_density, 0),
            (k_coverage_ratio, 0), (k_active_coverage_ratio, 0)] :=
  ⟨by simp [gmEx], by simp [Market.total_area, mEx7, pcEx],
   claim_C4 gmEx mEx7 (by simp [gmEx]) (by simp [Market.total_area, mEx7, pcEx])⟩

/-- C9.  Before any search result has been added — search count zero, every
per-category list empty, no recorded search points — `calculate_metrics`
returns exactly the one-entry dictionary `connection_rate ↦ 0` for every
market, the coverage computation contributing the empty dictionary. -/
theorem claim_C9 (mm : MarketMetrics) (m : Market)
    (h1 : mm.search_count = 0) (h2 : mm.bid_counts = [])
    (h3 : mm.distances_offer = []) (h4 : mm.distances_bid = [])
    (h5 : mm.distances_connection = []) (h6 : mm.scores_offer = [])
    (h7 : mm.scores_bid = []) (h8 : mm.scores_connection = [])
    (h9 : mm.geographic.search_points = []) :
    mm.calculate_metrics m = some [(k_connection_rate, 0)] := by
  have hcov : mm.geographic.calculate_coverage_metrics m = some [] := by
    unfold GeographicMetrics.calculate_coverage_metrics
    simp [h9]
  simp [MarketMetrics.calculate_metrics, h1, h2, h3, h4, h5, h6, h7, h8, hcov, statPair]

/-- C9 witness: a freshly constructed `MarketMetrics` over `mEx5`. -/
theorem claim_C9_witness :
    MarketMetrics.init.search_count = 0 ∧
    MarketMetrics.init.calculate_metrics mEx5 = some [(k_connection_rate, 0)] :=
  ⟨rfl, claim_C9 MarketMetrics.init mEx5 rfl rfl rfl rfl rfl rfl rfl rfl rfl⟩

/-- The location-market sampler at `mEx10` (center 0/180, radius 10101 km)
with first draw 0 (bearing 0) and second draw 1 (full radius) lands at
latitude 91, outside the coordinate range. -/
theorem mEx10_sample_eval :
    mEx10.sample_location_by_tam gEx10 = some ((91, 180, none), ⟨gEx10.stream, 2⟩) := by
  unfold Market.sample_location_by_tam mEx10 npUniform radians gEx10
  norm_num [Real.cos_zero, Real.sin_zero]

/-- C10.  The raw samplers do not re-validate coordinates: from the valid
near-pole center `locEx10` (and the valid antimeridian market `mEx10`) with
positive radii, `sample_point_in_radius` returns latitude 90.5 and
`sample_location_by_tam` returns latitude 91, both outside `[-90, 90]`; the
subsequent `SearchResult` validation inside the search then raises, so
`simulateSearchCore` fails on that draw stream. -/
theorem claim_C10 :
    locEx10.valid ∧
    (GeoLocation.sample_point_in_radius locEx10 111 gEx10).map (fun q => q.1) =
      some (90.5, 0) ∧
    ¬ ((90.5 : ℝ) ≤ 90) ∧
    mEx10.valid ∧
    (mEx10.sample_location_by_tam gEx10).map (fun q => (q.1.1, q.1.2.1)) =
      some (91, 180) ∧
    ¬ ((91 : ℝ) ≤ 90) ∧
    simulateSearchCore mEx10 cfgEx gEx10 = none := by
  refine ⟨?_, ?_, by norm_num, ?_, ?_, by norm_num, ?_⟩
  · unfold GeoLocation.valid locEx10
    norm_num
  · unfold GeoLocation.sample_point_in_radius npUniform locEx10 gEx10
    norm_num [Real.cos_zero, Real.sin_zero]
  · refine ⟨Or.inr ⟨by simp [mEx10], by simp [mEx10], by simp [mEx10]⟩,
      Or.inl rfl, ?_, ?_, ?_⟩
    · intro x hx
      rw [show mEx10.center_lat = some 0 from rfl, Option.some_inj] at hx
      subst hx
      norm_num
    · intro x hx
      rw [show mEx10.center_lon = some 180 from rfl, Option.some_inj] at hx
      subst hx
      norm_num
    · intro r hr
      rw [show mEx10.radius_km = some 10101 from rfl, Option.some_inj] at hr
      subst hr
      norm_num
  · rw [mEx10_sample_eval]
    norm_num
  · simp only [simulateSearchCore, mEx10_sample_eval]
    rw [if_neg (by norm_num)]

/-- A left fold of `max` dominates its initial value. -/
theorem foldl_max_le_init (a : ℝ) (l : List ℝ) : a ≤ l.foldl max a := by
  induction l generalizing a with
  | nil => exact le_rfl
  | cons y ys ih => exact le_trans (le_max_left a y) (ih (max a y))

/-- A left fold of `max` dominates every member. -/
theorem le_foldl_max_of_mem {l : List ℝ} {x : ℝ} (h : x ∈ l) (a : ℝ) :
    x ≤ l.foldl max a := by
  induction l generalizing a with
  | nil => cases h
  | cons y ys ih =>
    rcases List.mem_cons.mp h with hx | h'
    · subst hx
      exact le_trans (le_max_right a x) (foldl_max_le_init _ _)
    · exact ih h' _

/-- A left fold of `max` is the initial value or a member. -/
theorem foldl_max_mem (l : List ℝ) (a : ℝ) : l.foldl max a = a ∨ l.foldl max a ∈ l := by
  induction l generalizing a with
  | nil => left; rfl
  | cons y ys ih =>
    rcases ih (max a y) with h | h
    · by_cases hay : a ≤ y
      · right
        rw [List.foldl_cons, h, max_eq_right hay]
        exact List.mem_cons_self _ _
      · left
        rw [List.foldl_cons, h, max_eq_left (le_of_not_le hay)]
    · right
      exact List.mem_cons_of_mem y h

/-- `pyMax` dominates every member of the list. -/
theorem le_pyMax_of_mem {l : List ℝ} {x : ℝ} (h : x ∈ l) : x ≤ pyMax l := by
  cases l with
  | nil => cases h
  | cons y ys =>
    rcases List.mem_cons.mp h with hx | h'
    · subst hx
      exact foldl_max_le_init x ys
    · exact le_foldl_max_of_mem h' y

/-- `pyMax` of a non-empty list is one of its members. -/
theorem pyMax_mem {l : List ℝ} (h : l ≠ []) : pyMax l ∈ l := by
  cases l with
  | nil => exact absurd rfl h
  | cons y ys =>
    show ys.foldl max y ∈ y :: ys
    rcases foldl_max_mem ys y with h1 | h1
    · rw [h1]
      exact List.mem_cons_self _ _
    · exact List.mem_cons_of_mem _ h1

/-- `pyMax` of a list of non-negative reals is non-negative. -/
theorem pyMax_nonneg {l : List ℝ} (h : ∀ x ∈ l, 0 ≤ x) : 0 ≤ pyMax l := by
  cases hl : l with
  | nil => exact le_rfl
  | cons y ys =>
    subst hl
    exact h _ (pyMax_mem (by simp))

/-- Each postal code's contribution to the covered area is non-negative. -/
theorem postalCovered_nonneg (m : Market) (pcs : List (String × PostalCode)) (b : Bool)
    (harea : ∀ e ∈ pcs, 0 ≤ e.2.area.getD 0) : 0 ≤ postalCovered m pcs b := by
  unfold postalCovered
  apply List.sum_nonneg
  intro x hx
  obtain ⟨e, he, hex⟩ := List.mem_map.mp hx
  subst hex
  set cs0 := pcGroup m e.1
  cases hcs : (if b then cs0.filter (fun c => c.bidding_active) else cs0) with
  | nil => simp [hcs]
  | cons c rest =>
    simp only [hcs]
    exact le_min (mul_nonneg Real.pi_nonneg (sq_nonneg _)) (harea e he)

/-- With no registered cleaners every postal-code contribution vanishes. -/
theorem postalCovered_of_no_cleaners (m : Market) (pcs : List (String × PostalCode))
    (b : Bool) (h : m.cleaners = []) : postalCovered m pcs b = 0 := by
  unfold postalCovered
  apply List.sum_eq_zero
  intro x hx
  obtain ⟨e, he, hex⟩ := List.mem_map.mp hx
  subst hex
  have hg : pcGroup m e.1 = [] := by simp [pcGroup, h]
  cases b <;> simp [hg]

/-- Every member of a postal-code group is a registered cleaner. -/
theorem pcGroup_subset (m : Market) (code : String) :
    ∀ c ∈ pcGroup m code, c ∈ m.cleaners.map (fun e => e.2) :=
  fun _ hc => List.mem_of_mem_filter hc

/-- The bid-active covered area of each postal code is at most the covered
area over all its cleaners. -/
theorem postalCovered_active_le (m : Market) (pcs : List (String × PostalCode))
    (harea : ∀ e ∈ pcs, 0 ≤ e.2.area.getD 0)
    (hrad : ∀ e ∈ m.cleaners, 0 ≤ (e.2 : Cleaner).service_radius) :
    postalCovered m pcs true ≤ postalCovered m pcs false := by
  have hrad' : ∀ c ∈ m.cleaners.map (fun e => e.2), 0 ≤ c.service_radius := by
    intro c hc
    obtain ⟨e, he, hec⟩ := List.mem_map.mp hc
    subst hec
    exact hrad e he
  unfold postalCovered
  apply List.sum_le_sum
  intro e he
  simp only [if_true, if_false, Bool.false_eq_true]
  cases hcs0 : pcGroup m e.1 with
  | nil => simp
  | cons c rest =>
    cases hcs1 : (c :: rest).filter (fun x => x.bidding_active) with
    | nil =>
      exact le_min (mul_nonneg Real.pi_nonneg (sq_nonneg _)) (harea e he)
    | cons a arest =>
      apply min_le_min _ le_rfl
      apply mul_le_mul_of_nonneg_left _ Real.pi_nonneg
      have hsub : ∀ x ∈ (a :: arest).map (fun y : Cleaner => y.service_radius),
          x ∈ (c :: rest).map (fun y : Cleaner => y.service_radius) := by
        intro x hxm
        obtain ⟨y, hy, hyx⟩ := List.mem_map.mp hxm
        subst hyx
        rw [← hcs1] at hy
        exact List.mem_map.mpr ⟨y, List.mem_of_mem_filter hy, rfl⟩
      have hA0 : 0 ≤ pyMax ((a :: arest).map (fun y : Cleaner => y.service_radius)) := by
        apply pyMax_nonneg
        intro x hxm
        obtain ⟨y, hy, hyx⟩ := List.mem_map.mp hxm
        subst hyx
        rw [← hcs1] at hy
        have hy0 : y ∈ pcGroup m e.1 := by
          rw [hcs0]
          exact List.mem_of_mem_filter hy
        exact hrad' y (pcGroup_subset m e.1 y hy0)
      have hAB : pyMax ((a :: arest).map (fun y : Cleaner => y.service_radius)) ≤
          pyMax ((c :: rest).map (fun y : Cleaner => y.service_radius)) :=
        le_pyMax_of_mem (hsub _ (pyMax_mem (by simp)))
      exact pow_le_pow_left₀ hA0 hAB 2

/-- The covered area is at most the sum of postal-code areas. -/
theorem postalCovered_le_total (m : Market) (pcs : List (String × PostalCode))
    (harea : ∀ e ∈ pcs, 0 ≤ e.2.area.getD 0) :
    postalCovered m pcs false ≤ (pcs.map (fun e => e.2.area.getD 0)).sum := by
  unfold postalCovered
  apply List.sum_le_sum
  intro e he
  cases hcs0 : pcGroup m e.1 with
  | nil => simpa using harea e he
  | cons c rest => simp [min_le_right]

/-- Metric lookup skips a differently-keyed head entry. -/
theorem getMetric_cons_ne (k k' : String) (v : ℝ) (rest : List (String × ℝ)) (h : k ≠ k') :
    getMetric (some ((k, v) :: rest)) k' = getMetric (some rest) k' := by
  simp [getMetric, dictGet, List.find?_cons, decide_eq_false h]

/-- Metric lookup finds the head entry under its own key. -/
theorem getMetric_cons_self (k : String) (v : ℝ) (rest : List (String × ℝ)) :
    getMetric (some ((k, v) :: rest)) k = some v := by
  simp [getMetric, dictGet, List.find?_cons]

/-- The four leading metric keys are pairwise distinct where it matters. -/
theorem ksd_ne_kcr : k_search_density ≠ k_coverage_ratio := by decide

theorem kcd_ne_kcr : k_connection_density ≠ k_coverage_ratio := by decide

theorem ksd_ne_kacr : k_search_density ≠ k_active_coverage_ratio := by decide

theorem kcd_ne_kacr : k_connection_density ≠ k_active_coverage_ratio := by decide

theorem kcr_ne_kacr : k_coverage_ratio ≠ k_active_coverage_ratio := by decide

/-- `coverage_ratio` lookup in a coverage dictionary. -/
theorem getMetric_cr (a b x y : ℝ) (tail : List (String × ℝ)) :
    getMetric (some ((k_search_density, a) :: (k_connection_density, b) ::
      (k_coverage_ratio, x) :: (k_active_coverage_ratio, y) :: tail))
      k_coverage_ratio = some x := by
  rw [getMetric_cons_ne _ _ _ _ ksd_ne_kcr, getMetric_cons_ne _ _ _ _ kcd_ne_kcr,
    getMetric_cons_self]

/-- `active_coverage_ratio` lookup in a coverage dictionary. -/
theorem getMetric_acr (a b x y : ℝ) (tail : List (String × ℝ)) :
    getMetric (some ((k_search_density, a) :: (k_connection_density, b) ::
      (k_coverage_ratio, x) :: (k_active_coverage_ratio, y) :: tail))
      k_active_coverage_ratio = some y := by
  rw [getMetric_cons_ne _ _ _ _ ksd_ne_kacr, getMetric_cons_ne _ _ _ _ kcd_ne_kacr,
    getMetric_cons_ne _ _ _ _ kcr_ne_kacr, getMetric_cons_self]

/-- C5.  Over any valid market of either variant (postal mapping non-empty,
areas non-negative, cleaner service radii non-negative) with at least one
recorded search point, the computed coverage metrics contain both ratios,
with `0 ≤ active_coverage_ratio ≤ coverage_ratio ≤ 1`; with no registered
cleaners both ratios are 0. -/
theorem claim_C5 (gm : GeographicMetrics) (m : Market)
    (hsp : gm.search_points ≠ []) (hv : m.valid) (hne : m.postal_codes ≠ some [])
    (harea : ∀ pcs, m.postal_codes = some pcs → ∀ e ∈ pcs, 0 ≤ e.2.area.getD 0)
    (hrad : ∀ e ∈ m.cleaners, 0 ≤ (e.2 : Cleaner).service_radius) :
    (getMetric (gm.calculate_coverage_metrics m) k_coverage_ratio).isSome = true ∧
    (getMetric (gm.calculate_coverage_metrics m) k_active_coverage_ratio).isSome = true ∧
    0 ≤ (getMetric (gm.calculate_coverage_metrics m) k_active_coverage_ratio).getD 0 ∧
    (getMetric (gm.calculate_coverage_metrics m) k_active_coverage_ratio).getD 0 ≤
      (getMetric (gm.calculate_coverage_metrics m) k_coverage_ratio).getD 0 ∧
    (getMetric (gm.calculate_coverage_metrics m) k_coverage_ratio).getD 0 ≤ 1 ∧
    (m.cleaners = [] →
      (getMetric (gm.calculate_coverage_metrics m) k_coverage_ratio).getD 0 = 0 ∧
      (getMetric (gm.calculate_coverage_metrics m) k_active_coverage_ratio).getD 0 = 0) := by
  have hnsp : gm.search_points.isEmpty = false := by
    cases hsp' : gm.search_points with
    | nil => exact absurd hsp' hsp
    | cons a l => rfl
  have hrad' : ∀ x ∈ m.cleaners.map (fun e => e.2.service_radius), 0 ≤ x := by
    intro x hx
    obtain ⟨e, he, hex⟩ := List.mem_map.mp hx
    subst hex
    exact hrad e he
  cases hpc : m.postal_codes with
  | none =>
    obtain ⟨hv1, _, _, _, hv5⟩ := hv
    rcases hv1 with hpcne | ⟨_, _, hrkm⟩
    · exact absurd hpc hpcne
    cases hrkm' : m.radius_km with
    | none => exact absurd hrkm' hrkm
    | some r =>
    have hr0 : 0 < r := hv5 r hrkm'
    have hta : m.total_area = some (Real.pi * r ^ 2) := by
      simp [Market.total_area, hpc, hrkm']
    have htapos : 0 < Real.pi * r ^ 2 := mul_pos Real.pi_pos (pow_pos hr0 2)
    have hmaxR0 : 0 ≤ pyMax (m.cleaners.map (fun e => e.2.service_radius)) :=
      pyMax_nonneg hrad'
    have hcovnum0 : 0 ≤ Real.pi * pyMax (m.cleaners.map (fun e => e.2.service_radius)) ^ 2 *
        (m.cleaners.length : ℝ) :=
      mul_nonneg (mul_nonneg Real.pi_nonneg (sq_nonneg _)) (Nat.cast_nonneg _)
    have hcov0 : 0 ≤ min (Real.pi * pyMax (m.cleaners.map (fun e => e.2.service_radius)) ^ 2 *
        (m.cleaners.length : ℝ)) (Real.pi * r ^ 2) :=
      le_min hcovnum0 (le_of_lt htapos)
    cases hact : activeCleaners m with
    | nil =>
      have hres : gm.calculate_coverage_metrics m =
          some ((k_search_density, (gm.search_points.length : ℝ) / (Real.pi * r ^ 2)) ::
            (k_connection_density, (gm.connection_points.length : ℝ) / (Real.pi * r ^ 2)) ::
            (k_coverage_ratio,
              min (Real.pi * pyMax (m.cleaners.map (fun e => e.2.service_radius)) ^ 2 *
                (m.cleaners.length : ℝ)) (Real.pi * r ^ 2) / (Real.pi * r ^ 2)) ::
            (k_active_coverage_ratio, 0 / (Real.pi * r ^ 2)) :: avgRadiusTail m) := by
        unfold GeographicMetrics.calculate_coverage_metrics
        simp only [hnsp, Bool.false_eq_true, if_false, hta]
        rw [if_neg (not_le.mpr htapos)]
        simp only [hpc, hrkm', hact]
        simp only [List.cons_append, List.nil_append]
      rw [hres, getMetric_cr, getMetric_acr]
      simp only [Option.isSome_some, Option.getD_some]
      refine ⟨trivial, trivial, by positivity, ?_, ?_, ?_⟩
      · rw [zero_div]
        exact div_nonneg hcov0 (le_of_lt htapos)
      · exact div_le_one_of_le₀ (min_le_right _ _) (le_of_lt htapos)
      · intro h0
        constructor
        · rw [h0]
          simp [pyMax, min_eq_left (le_of_lt htapos)]
        · rw [zero_div]
    | cons a arest =>
      have hsubrad : ∀ x ∈ (a :: arest).map (fun y : Cleaner => y.service_radius),
          x ∈ m.cleaners.map (fun e => e.2.service_radius) := by
        intro x hx
        obtain ⟨y, hy, hyx⟩ := List.mem_map.mp hx
        subst hyx
        rw [← hact] at hy
        obtain ⟨e, he, hey⟩ := List.mem_map.mp (List.mem_of_mem_filter hy)
        exact List.mem_map.mpr ⟨e, he, by rw [hey]⟩
      have hA0 : 0 ≤ pyMax ((a :: arest).map (fun y : Cleaner => y.service_radius)) :=
        pyMax_nonneg (fun x hx => hrad' x (hsubrad x hx))
      have hAB : pyMax ((a :: arest).map (fun y : Cleaner => y.service_radius)) ≤
          pyMax (m.cleaners.map (fun e => e.2.service_radius)) :=
        le_pyMax_of_mem (hsubrad _ (pyMax_mem (by simp)))
      have hk : (((a :: arest).length : ℕ) : ℝ) ≤ (m.cleaners.length : ℝ) := by
        rw [← hact]
        exact_mod_cast le_trans (List.length_filter_le _ _)
          (le_of_eq (List.length_map _ _))
      have hnum : Real.pi * pyMax ((a :: arest).map (fun y : Cleaner => y.service_radius)) ^ 2 *
          ((a :: arest).length : ℝ) ≤
          Real.pi * pyMax (m.cleaners.map (fun e => e.2.service_radius)) ^ 2 *
          (m.cleaners.length : ℝ) :=
        mul_le_mul (mul_le_mul_of_nonneg_left (pow_le_pow_left₀ hA0 hAB 2) Real.pi_nonneg)
          hk (Nat.cast_nonneg _) (mul_nonneg Real.pi_nonneg (sq_nonneg _))
      have hACle : min (Real.pi *
            pyMax ((a :: arest).map (fun y : Cleaner => y.service_radius)) ^ 2 *
            ((a :: arest).length : ℝ)) (Real.pi * r ^ 2) ≤
          min (Real.pi * pyMax (m.cleaners.map (fun e => e.2.service_radius)) ^ 2 *
            (m.cleaners.length : ℝ)) (Real.pi * r ^ 2) :=
        min_le_min hnum le_rfl
      have hAC0 : 0 ≤ min (Real.pi *
          pyMax ((a :: arest).map (fun y : Cleaner => y.service_radius)) ^ 2 *
          ((a :: arest).length : ℝ)) (Real.pi * r ^ 2) :=
        le_min (mul_nonneg (mul_nonneg Real.pi_nonneg (sq_nonneg _)) (Nat.cast_nonneg _))
          (le_of_lt htapos)
      have hres : gm.calculate_coverage_metrics m =
          some ((k_search_density, (gm.search_points.length : ℝ) / (Real.pi * r ^ 2)) ::
            (k_connection_density, (gm.connection_points.length : ℝ) / (Real.pi * r ^ 2)) ::
            (k_coverage_ratio,
              min (Real.pi * pyMax (m.cleaners.map (fun e => e.2.service_radius)) ^ 2 *
                (m.cleaners.length : ℝ)) (Real.pi * r ^ 2) / (Real.pi * r ^ 2)) ::
            (k_active_coverage_ratio,
              min (Real.pi * pyMax ((a :: arest).map (fun y : Cleaner => y.service_radius)) ^ 2 *
                ((a :: arest).length : ℝ)) (Real.pi * r ^ 2) / (Real.pi * r ^ 2)) ::
            avgRadiusTail m) := by
        unfold GeographicMetrics.calculate_coverage_metrics
        simp only [hnsp, Bool.false_eq_true, if_false, hta]
        rw [if_neg (not_le.mpr htapos)]
        simp only [hpc, hrkm', hact]
        simp only [List.cons_append, List.nil_append]
      rw [hres, getMetric_cr, getMetric_acr]
      simp only [Option.isSome_some, Option.getD_some]
      refine ⟨trivial, trivial, ?_, ?_, ?_, ?_⟩
      · exact div_nonneg hAC0 (le_of_lt htapos)
      · exact (div_le_div_iff_of_pos_right htapos).mpr hACle
      · exact div_le_one_of_le₀ (min_le_right _ _) (le_of_lt htapos)
      · intro h0
        rw [activeCleaners, h0] at hact
        simp at hact
  | some pcs =>
    cases pcs with
    | nil => exact absurd hpc hne
    | cons p ps =>
    have harea' : ∀ e ∈ (p :: ps), 0 ≤ e.2.area.getD 0 := harea (p :: ps) hpc
    have hta : m.total_area = some (((p :: ps).map (fun e => e.2.area.getD 0)).sum) := by
      simp [Market.total_area, hpc]
    by_cases hta0 : ((p :: ps).map (fun e => e.2.area.getD 0)).sum ≤ 0
    · have hres : gm.calculate_coverage_metrics m =
          some [(k_search_density, 0), (k_connection_density, 0),
            (k_coverage_ratio, 0), (k_active_coverage_ratio, 0)] := by
        unfold GeographicMetrics.calculate_coverage_metrics
        simp only [hnsp, Bool.false_eq_true, if_false, hta]
        rw [if_pos hta0]
      rw [hres, getMetric_cr, getMetric_acr]
      simp only [Option.isSome_some, Option.getD_some]
      exact ⟨trivial, trivial, le_rfl, le_rfl, by norm_num, fun _ => ⟨trivial, trivial⟩⟩
    · have htapos : 0 < ((p :: ps).map (fun e => e.2.area.getD 0)).sum := not_le.mp hta0
      have h1 : 0 ≤ postalCovered m (p :: ps) true := postalCovered_nonneg m _ true harea'
      have h2 : postalCovered m (p :: ps) true ≤ postalCovered m (p :: ps) false :=
        postalCovered_active_le m _ harea' hrad
      have h3 : postalCovered m (p :: ps) false ≤
          ((p :: ps).map (fun e => e.2.area.getD 0)).sum :=
        postalCovered_le_total m _ harea'
      have hres : gm.calculate_coverage_metrics m =
          some ((k_search_density, (gm.search_points.length : ℝ) /
              ((p :: ps).map (fun e => e.2.area.getD 0)).sum) ::
            (k_connection_density, (gm.connection_points.length : ℝ) /
              ((p :: ps).map (fun e => e.2.area.getD 0)).sum) ::
            (k_coverage_ratio, postalCovered m (p :: ps) false /
              ((p :: ps).map (fun e => e.2.area.getD 0)).sum) ::
            (k_active_coverage_ratio, postalCovered m (p :: ps) true /
              ((p :: ps).map (fun e => e.2.area.getD 0)).sum) :: avgRadiusTail m) := by
        unfold GeographicMetrics.calculate_coverage_metrics
        simp only [hnsp, Bool.false_eq_true, if_false, hta]
        rw [if_neg hta0]
        simp only [hpc]
        simp only [List.cons_append, List.nil_append]
      rw [hres, getMetric_cr, getMetric_acr]
      simp only [Option.isSome_some, Option.getD_some]
      refine ⟨trivial, trivial, ?_, ?_, ?_, ?_⟩
      · exact div_nonneg h1 (le_of_lt htapos)
      · exact (div_le_div_iff_of_pos_right htapos).mpr h2
      · exact div_le_one_of_le₀ h3 (le_of_lt htapos)
      · intro h0
        rw [postalCovered_of_no_cleaners m _ false h0, postalCovered_of_no_cleaners m _ true h0,
          zero_div]
        exact ⟨rfl, rfl⟩

/-- The concrete location market `mEx5` passes the `Market` validation. -/
theorem mEx5_valid : mEx5.valid := by
  refine ⟨Or.inr ⟨by simp [mEx5], by simp [mEx5], by simp [mEx5]⟩, Or.inl rfl, ?_, ?_, ?_⟩
  · intro x hx
    rw [show mEx5.center_lat = some 0 from rfl, Option.some_inj] at hx
    subst hx
    norm_num
  · intro x hx
    rw [show mEx5.center_lon = some 0 from rfl, Option.some_inj] at hx
    subst hx
    norm_num
  · intro r hr
    rw [show mEx5.radius_km = some 1 from rfl, Option.some_inj] at hr
    subst hr
    norm_num

/-- C5 witness: the coverage bound applied to one recorded search point over
the cleaner-less location market `mEx5`. -/
theorem claim_C5_witness :
    (getMetric (gmEx.calculate_coverage_metrics mEx5) k_coverage_ratio).isSome = true ∧
    (getMetric (gmEx.calculate_coverage_metrics mEx5) k_active_coverage_ratio).isSome = true ∧
    0 ≤ (getMetric (gmEx.calculate_coverage_metrics mEx5) k_active_coverage_ratio).getD 0 ∧
    (getMetric (gmEx.calculate_coverage_metrics mEx5) k_active_coverage_ratio).getD 0 ≤
      (getMetric (gmEx.calculate_coverage_metrics mEx5) k_coverage_ratio).getD 0 ∧
    (getMetric (gmEx.calculate_coverage_metrics mEx5) k_coverage_ratio).getD 0 ≤ 1 ∧
    (mEx5.cleaners = [] →
      (getMetric (gmEx.calculate_coverage_metrics mEx5) k_coverage_ratio).getD 0 = 0 ∧
      (getMetric (gmEx.calculate_coverage_metrics mEx5) k_active_coverage_ratio).getD 0 = 0) :=
  claim_C5 gmEx mEx5 (by simp [gmEx]) mEx5_valid (by simp [mEx5]) (by simp [mEx5])
    (by simp [mEx5])
